import Mathlib

/-!
Shallow embedding of the cursor-gravity particle demo (src/gravity.cpp).

The simulation lives in the GLSL vertex shader `vertexSource`: per particle,
it computes a gravitational pull toward a source point, integrates velocity
and position, and reflects the velocity (with a loss factor) when the updated
position crosses a wall of the [-1, 1] square.  The C++ frame loop ping-pongs
two vertex buffers (`currVB`, `currTFB`) between simulation input and
transform-feedback output.

GLSL float arithmetic is modelled by exact real arithmetic (`ℝ`); GLSL
built-ins `length`, `normalize`, `clamp`, `reflect` are translated by their
GLSL-specification formulas.  Note that in this model division by zero yields
0 (Lean's convention), so `normalize` of the zero vector is the zero vector;
where a claim is about division by zero we state the divisors explicitly.
-/

noncomputable section

namespace Gravity

/-- 2D vector (GLSL `vec2`), first component x, second component y. -/
abbrev Vec2 := ℝ × ℝ

/-- Componentwise vector addition. -/
def vadd (a b : Vec2) : Vec2 := (a.1 + b.1, a.2 + b.2)

/-- Componentwise vector subtraction. -/
def vsub (a b : Vec2) : Vec2 := (a.1 - b.1, a.2 - b.2)

/-- Scalar times vector (GLSL `c * v`). -/
def smul (c : ℝ) (a : Vec2) : Vec2 := (c * a.1, c * a.2)

/-- Vector divided by scalar, componentwise (GLSL `v / c`). -/
def vdiv (a : Vec2) (c : ℝ) : Vec2 := (a.1 / c, a.2 / c)

/-- GLSL `dot(a, b)`. -/
def dot (a b : Vec2) : ℝ := a.1 * b.1 + a.2 * b.2

/-- GLSL `length(a) = sqrt(dot(a, a))`. -/
def length (a : Vec2) : ℝ := Real.sqrt (dot a a)

/-- GLSL `normalize(a) = a / length(a)`. -/
def normalize (a : Vec2) : Vec2 := vdiv a (length a)

/-- GLSL `clamp(x, lo, hi) = min(max(x, lo), hi)`. -/
def clamp (x lo hi : ℝ) : ℝ := min (max x lo) hi

/-- GLSL `reflect(I, N) = I - 2 * dot(N, I) * N`. -/
def reflect (I N : Vec2) : Vec2 := vsub I (smul (2 * dot N I) N)

/-- `const float reflectLoss = 0.5;` — velocity loss upon reflection. -/
def reflectLoss : ℝ := 0.5

/-- The force-law part of the shader `main` (gravity.cpp lines 24–27), before
the boundary reflection:

    vec2 diff = source - position;
    float r2 = clamp(length(diff) * length(diff), 0.1, 1.0);
    newVel = velocity + dt*normalize(diff)/r2;
    newPos = position + dt*newVel;

Returns `(newPos, newVel)`. -/
def simUpdate (position velocity source : Vec2) (dt : ℝ) : Vec2 × Vec2 :=
  let diff := vsub source position
  let r2 := clamp (length diff * length diff) 0.1 1.0
  let newVel := vadd velocity (vdiv (smul dt (normalize diff)) r2)
  let newPos := vadd position (smul dt newVel)
  (newPos, newVel)

/-- The full shader `main` (gravity.cpp lines 23–34): the force-law update
followed by the two wall checks, X first, then Y, both conditioned on the
same `newPos`:

    if (newPos.x < -1.0 || newPos.x > 1.0)
        newVel = reflectLoss*reflect(newVel, vec2(1.0, 0.0));
    if (newPos.y < -1.0 || newPos.y > 1.0)
        newVel = reflectLoss*reflect(newVel, vec2(0.0, 1.0));

Returns the transform-feedback outputs `(newPos, newVel)`. -/
def vertexMain (position velocity source : Vec2) (dt : ℝ) : Vec2 × Vec2 :=
  let u := simUpdate position velocity source dt
  let newPos := u.1
  let v1 := if newPos.1 < -1 ∨ 1 < newPos.1
            then smul reflectLoss (reflect u.2 (1, 0)) else u.2
  let v2 := if newPos.2 < -1 ∨ 1 < newPos.2
            then smul reflectLoss (reflect v1 (0, 1)) else v1
  (newPos, v2)

/-- The squared-distance factor `r2` computed by the shader, as a function of
position and source alone (gravity.cpp line 25). -/
def r2val (position source : Vec2) : ℝ :=
  clamp (length (vsub source position) * length (vsub source position)) 0.1 1.0

/-- The step's two divisions have nonzero divisors: `normalize(diff)`
divides by `length(diff)` (gravity.cpp line 26), and the velocity kick
divides by `r2` (same line). -/
def divisionSafe (p s : Vec2) : Prop :=
  length (vsub s p) ≠ 0 ∧ r2val p s ≠ 0

/-- A particle as stored in a vertex buffer slot: position and velocity
(the xy and zw halves of the `glm::vec4` per-vertex record). -/
structure Particle where
  pos : Vec2
  vel : Vec2

/-- One particle passed through the simulation shader: the transform-feedback
outputs `(newPos, newVel)` become the particle record written to the
feedback buffer. -/
def stepParticle (source : Vec2) (dt : ℝ) (pt : Particle) : Particle :=
  let r := vertexMain pt.pos pt.vel source dt
  ⟨r.1, r.2⟩

/-- The Simulation Stage over a whole buffer: `glDrawArrays(GL_POINTS, 0,
numVertices)` under transform feedback runs the shader once per particle of
the bound input buffer and captures the outputs in order. -/
def simFrame (source : Vec2) (dt : ℝ) (buf : List Particle) : List Particle :=
  buf.map (stepParticle source dt)

/-- The clip-space point positions rasterized by the same draw call:
`gl_Position = vec4(position, 0.0, 1.0);` (gravity.cpp line 36) uses the
*input* attribute `position`, so each particle of the bound input buffer is
drawn at its pre-update position. -/
def rasterizedPositions (buf : List Particle) : List Vec2 :=
  buf.map fun pt => pt.pos

/-- The input buffer contents at the start of frame `n`: frame `n` reads the
buffer written by frame `n - 1` (the swap at the end of each loop iteration
makes the feedback target the next input). -/
def frames (source : Vec2) (dt : ℝ) (buf : List Particle) : Nat → List Particle
  | 0 => buf
  | n + 1 => simFrame source dt (frames source dt buf n)

/-- End-of-frame buffer swap (gravity.cpp lines 290–291):
`currVB = currTFB; currTFB = currTFB ^ 1;` applied to the state
`(currVB, currTFB)`. -/
def swapBuffers (st : Nat × Nat) : Nat × Nat := (st.2, st.2 ^^^ 1)

/-- The `(currVB, currTFB)` pair at the start of simulation step `n`:
initialised `currVB = 0, currTFB = 1` (gravity.cpp line 243) and swapped
once per completed frame. -/
def buffersAt : Nat → Nat × Nat
  | 0 => (0, 1)
  | n + 1 => swapBuffers (buffersAt n)

/-- The spec's contract for the Simulation Stage, transcribed from its own
words (spec.md §4.1): `diff = s - p`, `r2 = clamp(|diff|^2, 0.1, 1.0)`,
`v2 = v + dt * normalize(diff) / r2`, `p2 = p + dt * v2`, with `|diff|^2`
read as the squared Euclidean norm.  Stated only to be compared with
`simUpdate`, the translation of the source. -/
def specContractStep (p v s : Vec2) (dt : ℝ) : Vec2 × Vec2 :=
  let diff := vsub s p
  let r2 := clamp ((length diff) ^ 2) 0.1 1.0
  let v2 := vadd v (vdiv (smul dt (normalize diff)) r2)
  let p2 := vadd p (smul dt v2)
  (p2, v2)

/-- The shader hits the X wall check: `newPos.x < -1.0 || newPos.x > 1.0`
(gravity.cpp line 30). -/
def hitX (p v s : Vec2) (dt : ℝ) : Prop :=
  (simUpdate p v s dt).1.1 < -1 ∨ 1 < (simUpdate p v s dt).1.1

/-- The shader hits the Y wall check: `newPos.y < -1.0 || newPos.y > 1.0`
(gravity.cpp line 32). -/
def hitY (p v s : Vec2) (dt : ℝ) : Prop :=
  (simUpdate p v s dt).1.2 < -1 ∨ 1 < (simUpdate p v s dt).1.2

theorem dot_self_nonneg (a : Vec2) : 0 ≤ dot a a :=
  add_nonneg (mul_self_nonneg _) (mul_self_nonneg _)

theorem length_nonneg (a : Vec2) : 0 ≤ length a := Real.sqrt_nonneg _

theorem dot_self_pos (a : Vec2) (h : a ≠ (0, 0)) : 0 < dot a a := by
  have h1 : a.1 ≠ 0 ∨ a.2 ≠ 0 := by
    by_contra hc
    push_neg at hc
    exact h (Prod.ext hc.1 hc.2)
  unfold dot
  rcases h1 with h1 | h1
  · nlinarith [mul_self_pos.mpr h1, mul_self_nonneg a.2]
  · nlinarith [mul_self_pos.mpr h1, mul_self_nonneg a.1]

theorem length_pos (a : Vec2) (h : a ≠ (0, 0)) : 0 < length a :=
  Real.sqrt_pos.mpr (dot_self_pos a h)

theorem length_smul (c : ℝ) (a : Vec2) : length (smul c a) = |c| * length a := by
  unfold length smul dot
  have hc : c * a.1 * (c * a.1) + c * a.2 * (c * a.2) = c ^ 2 * (a.1 * a.1 + a.2 * a.2) := by
    ring
  rw [hc, Real.sqrt_mul (sq_nonneg c), Real.sqrt_sq_eq_abs]

theorem vdiv_eq_smul (a : Vec2) (c : ℝ) : vdiv a c = smul c⁻¹ a := by
  unfold vdiv smul
  simp [div_eq_inv_mul]

theorem length_normalize (a : Vec2) (h : a ≠ (0, 0)) : length (normalize a) = 1 := by
  unfold normalize
  rw [vdiv_eq_smul, length_smul, abs_inv, abs_of_pos (length_pos a h),
    inv_mul_cancel₀ (ne_of_gt (length_pos a h))]

theorem r2val_lower (p s : Vec2) : 0.1 ≤ r2val p s := by
  unfold r2val clamp
  exact le_min (le_max_right _ _) (by norm_num)

theorem r2val_upper (p s : Vec2) : r2val p s ≤ 1 := by
  unfold r2val clamp
  exact (min_le_right _ _).trans (by norm_num)

theorem r2val_pos (p s : Vec2) : 0 < r2val p s :=
  lt_of_lt_of_le (by norm_num) (r2val_lower p s)

/-- Unfolding equation for `vertexMain`, with the two wall checks spelled as
in the source. -/
theorem vertexMain_def (p v s : Vec2) (dt : ℝ) :
    vertexMain p v s dt =
      ((simUpdate p v s dt).1,
       if (simUpdate p v s dt).1.2 < -1 ∨ 1 < (simUpdate p v s dt).1.2 then
         smul reflectLoss (reflect
           (if (simUpdate p v s dt).1.1 < -1 ∨ 1 < (simUpdate p v s dt).1.1 then
             smul reflectLoss (reflect (simUpdate p v s dt).2 (1, 0))
            else (simUpdate p v s dt).2) (0, 1))
       else
         if (simUpdate p v s dt).1.1 < -1 ∨ 1 < (simUpdate p v s dt).1.1 then
           smul reflectLoss (reflect (simUpdate p v s dt).2 (1, 0))
         else (simUpdate p v s dt).2) := rfl

theorem simUpdate_scenario1 : simUpdate (0,0) (0,0) (1,0) 1 = ((1,0),(1,0)) := by
  have hlen : length (1,0) = 1 := by simp [length, dot]
  have hn : normalize (1,0) = (1,0) := by simp [normalize, vdiv, hlen]
  simp [simUpdate, vsub, vadd, smul, vdiv, clamp, dot, hlen, hn]
  norm_num

theorem vertexMain_scenario1 : vertexMain (0,0) (0,0) (1,0) 1 = ((1,0),(1,0)) := by
  rw [vertexMain_def, simUpdate_scenario1]
  norm_num

theorem simUpdate_scenario2 : simUpdate (0,0) (1,1) (1,0) 1 = ((2,1),(2,1)) := by
  have hlen : length (1,0) = 1 := by simp [length, dot]
  have hn : normalize (1,0) = (1,0) := by simp [normalize, vdiv, hlen]
  simp [simUpdate, vsub, vadd, smul, vdiv, clamp, dot, hlen, hn]
  norm_num

theorem vertexMain_scenario2 : vertexMain (0,0) (1,1) (1,0) 1 = ((2,1),(-1,1/2)) := by
  rw [vertexMain_def, simUpdate_scenario2]
  norm_num [smul, reflect, vsub, dot, reflectLoss, Prod.ext_iff]

theorem simUpdate_scenario3 : simUpdate (0,0) (2,2) (1,0) 1 = ((3,2),(3,2)) := by
  have hlen : length (1,0) = 1 := by simp [length, dot]
  have hn : normalize (1,0) = (1,0) := by simp [normalize, vdiv, hlen]
  simp [simUpdate, vsub, vadd, smul, vdiv, clamp, dot, hlen, hn]
  norm_num

theorem vertexMain_scenario3 : vertexMain (0,0) (2,2) (1,0) 1 = ((3,2),(-3/4,-1/2)) := by
  rw [vertexMain_def, simUpdate_scenario3]
  norm_num [smul, reflect, vsub, dot, reflectLoss, Prod.ext_iff]

theorem simUpdate_dt0 : simUpdate (2,0) (1,1) (0,0) 0 = ((2,0),(1,1)) := by
  simp [simUpdate, vsub, vadd, smul, vdiv, clamp, dot]

theorem vertexMain_dt0 : vertexMain (2,0) (1,1) (0,0) 0 = ((2,0),(-(1/2),1/2)) := by
  rw [vertexMain_def, simUpdate_dt0]
  norm_num [smul, reflect, vsub, dot, reflectLoss, Prod.ext_iff]


/-- Claim C1: one simulation step, before any boundary handling, computes
`diff = s - p`, `r2 = clamp(|diff|^2, 0.1, 1.0)`, `v2 = v + dt *
normalize(diff) / r2`, and `p2 = p + dt * v2` (using the updated velocity):
the source's force-law update coincides with the spec's contract. -/
theorem simUpdate_eq_specContractStep (p v s : Vec2) (dt : ℝ) :
    simUpdate p v s dt = specContractStep p v s dt := by
  simp [simUpdate, specContractStep, pow_two]

/-- Counterexample to claim C2: with particle at (0,0), velocity (1,1),
source (1,0), dt = 1, the updated position (2,1) crosses only the X wall,
yet the reflection changes the Y velocity component (from 1 to 1/2): the
whole velocity vector is scaled by the loss factor, not just the X part. -/
theorem xReflection_changes_y_velocity_cex :
    (vertexMain (0,0) (1,1) (1,0) 1).2.2 ≠ (simUpdate (0,0) (1,1) (1,0) 1).2.2 ∧
    hitX (0,0) (1,1) (1,0) 1 ∧ ¬ hitY (0,0) (1,1) (1,0) 1 := by
  refine ⟨?_, ?_, ?_⟩
  · rw [vertexMain_scenario2, simUpdate_scenario2]
    norm_num
  · unfold hitX
    rw [simUpdate_scenario2]
    norm_num
  · unfold hitY
    rw [simUpdate_scenario2]
    norm_num

/-- Claim C2 (amended): an X-wall reflection negates the X velocity
component and scales BOTH components by the loss factor 0.5; symmetrically,
a Y-wall reflection negates Y and scales both components by 0.5. -/
theorem wall_reflection_negates_axis_and_halves_both (p v s : Vec2) (dt : ℝ) :
    (hitX p v s dt → ¬ hitY p v s dt →
      (vertexMain p v s dt).2 =
        (-(reflectLoss * (simUpdate p v s dt).2.1),
          reflectLoss * (simUpdate p v s dt).2.2)) ∧
    (¬ hitX p v s dt → hitY p v s dt →
      (vertexMain p v s dt).2 =
        (reflectLoss * (simUpdate p v s dt).2.1,
          -(reflectLoss * (simUpdate p v s dt).2.2))) := by
  unfold hitX hitY
  rw [vertexMain_def]
  constructor
  · intro hx hy
    simp only [if_neg hy, if_pos hx]
    simp [smul, reflect, vsub, dot, reflectLoss, Prod.ext_iff]
    ring
  · intro hx hy
    simp only [if_pos hy, if_neg hx]
    simp [smul, reflect, vsub, dot, reflectLoss, Prod.ext_iff]
    ring

/-- Witness for the amended claim C2, at particle (0,0), velocity (1,1),
source (1,0), dt = 1. -/
theorem wall_reflection_negates_axis_and_halves_both_witness :
    hitX (0,0) (1,1) (1,0) 1 ∧ ¬ hitY (0,0) (1,1) (1,0) 1 ∧
    (vertexMain (0,0) (1,1) (1,0) 1).2 =
      (-(reflectLoss * (simUpdate (0,0) (1,1) (1,0) 1).2.1),
        reflectLoss * (simUpdate (0,0) (1,1) (1,0) 1).2.2) := by
  have hx : hitX (0,0) (1,1) (1,0) 1 := by
    unfold hitX
    rw [simUpdate_scenario2]
    norm_num
  have hy : ¬ hitY (0,0) (1,1) (1,0) 1 := by
    unfold hitY
    rw [simUpdate_scenario2]
    norm_num
  exact ⟨hx, hy, (wall_reflection_negates_axis_and_halves_both (0,0) (1,1) (1,0) 1).1 hx hy⟩

/-- Claim C3: in the corner case (updated position beyond the range on both
axes) both reflections are applied to the velocity sequentially, X first
then Y, each conditioned on the same unreflected updated position; the
position output is that unreflected updated position, and the resulting
velocity is both components negated and scaled by 0.5 * 0.5. -/
theorem corner_applies_both_reflections (p v s : Vec2) (dt : ℝ)
    (hx : hitX p v s dt) (hy : hitY p v s dt) :
    (vertexMain p v s dt).1 = (simUpdate p v s dt).1 ∧
    (vertexMain p v s dt).2 =
      smul reflectLoss (reflect (smul reflectLoss
        (reflect (simUpdate p v s dt).2 (1, 0))) (0, 1)) ∧
    (vertexMain p v s dt).2 =
      (-(reflectLoss * reflectLoss * (simUpdate p v s dt).2.1),
        -(reflectLoss * reflectLoss * (simUpdate p v s dt).2.2)) := by
  unfold hitX at hx
  unfold hitY at hy
  rw [vertexMain_def]
  refine ⟨rfl, ?_, ?_⟩
  · simp only [if_pos hy, if_pos hx]
  · simp only [if_pos hy, if_pos hx]
    simp [smul, reflect, vsub, dot, reflectLoss, Prod.ext_iff]
    constructor <;> ring

/-- Witness for claim C3, at particle (0,0), velocity (2,2), source (1,0),
dt = 1 (updated position (3,2) crosses both walls). -/
theorem corner_applies_both_reflections_witness :
    hitX (0,0) (2,2) (1,0) 1 ∧ hitY (0,0) (2,2) (1,0) 1 ∧
    (vertexMain (0,0) (2,2) (1,0) 1).2 =
      (-(reflectLoss * reflectLoss * (simUpdate (0,0) (2,2) (1,0) 1).2.1),
        -(reflectLoss * reflectLoss * (simUpdate (0,0) (2,2) (1,0) 1).2.2)) := by
  have hx : hitX (0,0) (2,2) (1,0) 1 := by
    unfold hitX
    rw [simUpdate_scenario3]
    norm_num
  have hy : hitY (0,0) (2,2) (1,0) 1 := by
    unfold hitY
    rw [simUpdate_scenario3]
    norm_num
  exact ⟨hx, hy, (corner_applies_both_reflections (0,0) (2,2) (1,0) 1 hx hy).2.2⟩


/-- Counterexample to claim C4: for a particle exactly at the gravity
source, the divisor used by `normalize` — the length of `diff` — is zero,
so the step does divide by zero there (the clamp protects only the later
division by `r2`). -/
theorem division_by_zero_at_source_cex :
    ¬ divisionSafe ((0:ℝ),(0:ℝ)) ((0:ℝ),(0:ℝ)) ∧
    length (vsub ((0:ℝ),(0:ℝ)) ((0:ℝ),(0:ℝ))) = 0 := by
  have hlen : length (vsub ((0:ℝ),(0:ℝ)) ((0:ℝ),(0:ℝ))) = 0 := by
    simp [vsub, length, dot]
  exact ⟨fun h => h.1 hlen, hlen⟩

/-- Claim C4 (amended): the clamp keeps `r2 ≥ 0.1` for every input, so the
division by `r2` is never a division by zero; but the step's other divisor,
`length(diff)` inside `normalize`, vanishes exactly when the particle sits
at the source: the step is free of zero divisors iff `p ≠ s`. -/
theorem division_safety_characterization (p s : Vec2) :
    0.1 ≤ r2val p s ∧ (divisionSafe p s ↔ p ≠ s) := by
  refine ⟨r2val_lower p s, ?_, ?_⟩
  · intro h heq
    apply h.1
    subst heq
    simp [vsub, length, dot]
  · intro hne
    have hv : vsub s p ≠ (0, 0) := by
      intro hz
      apply hne
      have h1 : s.1 - p.1 = 0 ∧ s.2 - p.2 = 0 := by
        simpa [vsub, Prod.ext_iff] using hz
      exact Prod.ext (by linarith [h1.1]) (by linarith [h1.2])
    exact ⟨ne_of_gt (length_pos _ hv), ne_of_gt (r2val_pos p s)⟩

/-- Witness for the amended claim C4, at particle (0,0), source (1,0). -/
theorem division_safety_characterization_witness :
    0.1 ≤ r2val ((0:ℝ),(0:ℝ)) ((1:ℝ),(0:ℝ)) ∧
    (divisionSafe ((0:ℝ),(0:ℝ)) ((1:ℝ),(0:ℝ)) ↔ ((0:ℝ),(0:ℝ)) ≠ ((1:ℝ),(0:ℝ))) :=
  division_safety_characterization (0,0) (1,0)

/-- Counterexample to claim C5: with dt = 0 but the particle already outside
the walls — position (2,0), velocity (1,1), source (0,0) — the step keeps
the position but still reflects the velocity, which becomes (-1/2, 1/2) ≠
(1,1). -/
theorem dt_zero_changes_velocity_cex :
    (vertexMain (2,0) (1,1) (0,0) 0).1 = ((2:ℝ),(0:ℝ)) ∧
    (vertexMain (2,0) (1,1) (0,0) 0).2 ≠ ((1:ℝ),(1:ℝ)) := by
  constructor
  · rw [vertexMain_dt0]
  · rw [vertexMain_dt0]
    norm_num [Prod.ext_iff]

/-- Claim C5 (amended): a step with dt = 0 always leaves the position
unchanged, and leaves the velocity unchanged provided the position lies
within the [-1, 1] range on both axes (a particle already beyond a wall
still gets its velocity reflected). -/
theorem dt_zero_step (p v s : Vec2) :
    (vertexMain p v s 0).1 = p ∧
    (-1 ≤ p.1 → p.1 ≤ 1 → -1 ≤ p.2 → p.2 ≤ 1 → (vertexMain p v s 0).2 = v) := by
  have hsim : simUpdate p v s 0 = (p, v) := by
    unfold simUpdate
    simp [vadd, smul, vdiv]
  constructor
  · rw [vertexMain_def, hsim]
  · intro h1 h2 h3 h4
    rw [vertexMain_def, hsim]
    have hx : ¬((p, v).1.1 < -1 ∨ 1 < (p, v).1.1) := by
      push_neg
      exact ⟨by simpa using h1, by simpa using h2⟩
    have hy : ¬((p, v).1.2 < -1 ∨ 1 < (p, v).1.2) := by
      push_neg
      exact ⟨by simpa using h3, by simpa using h4⟩
    simp only [if_neg hx, if_neg hy]

/-- Witness for the amended claim C5, at particle (0,0), velocity (3,4),
source (1,1). -/
theorem dt_zero_step_witness :
    (vertexMain (0,0) (3,4) (1,1) 0).1 = ((0:ℝ),(0:ℝ)) ∧
    (vertexMain (0,0) (3,4) (1,1) 0).2 = ((3:ℝ),(4:ℝ)) :=
  ⟨(dt_zero_step (0,0) (3,4) (1,1)).1,
    (dt_zero_step (0,0) (3,4) (1,1)).2 (by norm_num) (by norm_num) (by norm_num) (by norm_num)⟩

/-- Counterexample to claim C6: the draw call rasterizes each particle at
the position read from the input buffer, not at the updated position
written to the feedback buffer in that frame: for a single particle at
(0,0) with zero velocity, source (1,0), dt = 1, the rasterized position is
(0,0) while the updated position written out is (1,0). -/
theorem render_uses_old_position_cex :
    rasterizedPositions [⟨(0,0),(0,0)⟩] ≠
      List.map Particle.pos (simFrame (1,0) 1 [⟨(0,0),(0,0)⟩]) := by
  intro h
  have h1 : ((0:ℝ),(0:ℝ)) = (vertexMain (0,0) (0,0) (1,0) 1).1 := by
    simpa [rasterizedPositions, simFrame, stepParticle] using h
  rw [vertexMain_scenario1] at h1
  norm_num [Prod.ext_iff] at h1

/-- Claim C6 (amended): each frame's draw rasterizes the particles of its
input buffer at their pre-update positions; the updated positions captured
into the feedback buffer during frame n are the positions rasterized by
frame n + 1. -/
theorem render_draws_previous_frame_output (s : Vec2) (dt : ℝ)
    (buf : List Particle) (n : ℕ) :
    rasterizedPositions (frames s dt buf (n + 1)) =
      (frames s dt buf n).map (fun pt => (vertexMain pt.pos pt.vel s dt).1) := by
  show rasterizedPositions (simFrame s dt (frames s dt buf n)) = _
  unfold rasterizedPositions simFrame
  rw [List.map_map]
  rfl

/-- Claim C7: ping-pong parity — starting from `(currVB, currTFB) = (0, 1)`,
after n steps buffer 0 is the current (input) buffer iff n is even and the
feedback target iff n is odd, and the two roles never name the same
buffer. -/
theorem pingPong_parity (n : ℕ) :
    ((buffersAt n).1 = 0 ↔ n % 2 = 0) ∧ ((buffersAt n).2 = 0 ↔ n % 2 = 1) ∧
    (buffersAt n).1 ≠ (buffersAt n).2 := by
  have key : buffersAt n = (n % 2, (n + 1) % 2) := by
    induction n with
    | zero => rfl
    | succ k ih =>
      have h2 : buffersAt (k + 1) = swapBuffers (buffersAt k) := rfl
      rw [h2, ih]
      unfold swapBuffers
      rcases Nat.mod_two_eq_zero_or_one (k + 1) with h | h <;>
        simp [h, Prod.ext_iff, Nat.zero_xor, Nat.xor_self] <;> omega
  rw [key]
  refine ⟨?_, ?_, ?_⟩ <;> simp <;> omega

/-- Claim C8: the boundary reflection modifies only the velocity — the
position output by a step is always `p + dt * v2` with `v2` the
pre-reflection updated velocity — and a particle can indeed exit the
visible range: the scenario of the C2 counterexample input leaves
`newPos.x = 2 > 1` untouched. -/
theorem reflection_preserves_position :
    (∀ (p v s : Vec2) (dt : ℝ),
      (vertexMain p v s dt).1 = vadd p (smul dt (simUpdate p v s dt).2)) ∧
    1 < (vertexMain (0,0) (1,1) (1,0) 1).1.1 := by
  constructor
  · intro p v s dt
    rfl
  · rw [vertexMain_scenario2]
    norm_num

/-- Claim C9: the end-to-end scenario — particle at (0,0), velocity (0,0),
source (1,0), dt = 1 — yields new velocity (1,0) and new position (1,0),
and no reflection fires since the check is strict (1.0 is not > 1.0). -/
theorem endToEnd_scenario :
    vertexMain (0,0) (0,0) (1,0) 1 = ((1,0),(1,0)) ∧
    (vertexMain (0,0) (0,0) (1,0) 1).2 = (simUpdate (0,0) (0,0) (1,0) 1).2 := by
  refine ⟨vertexMain_scenario1, ?_⟩
  rw [vertexMain_scenario1, simUpdate_scenario1]

/-- Claim C10: for a particle not at the source and dt > 0, the magnitude of
the velocity kick `dt * normalize(diff) / r2` added by a step lies between
dt and 10 * dt, since `normalize(diff)` has unit length and r2 is clamped
to [0.1, 1]. -/
theorem velocity_kick_bounded (p v s : Vec2) (dt : ℝ)
    (hd : vsub s p ≠ (0, 0)) (hdt : 0 < dt) :
    (simUpdate p v s dt).2 = vadd v (vdiv (smul dt (normalize (vsub s p))) (r2val p s)) ∧
    dt ≤ length (vdiv (smul dt (normalize (vsub s p))) (r2val p s)) ∧
    length (vdiv (smul dt (normalize (vsub s p))) (r2val p s)) ≤ 10 * dt := by
  have hlen : length (vdiv (smul dt (normalize (vsub s p))) (r2val p s)) = dt / r2val p s := by
    rw [vdiv_eq_smul, length_smul, length_smul, length_normalize _ hd,
      abs_inv, abs_of_pos (r2val_pos p s), abs_of_pos hdt]
    ring
  refine ⟨rfl, ?_, ?_⟩
  · rw [hlen, le_div_iff₀ (r2val_pos p s)]
    nlinarith [r2val_upper p s]
  · rw [hlen, div_le_iff₀ (r2val_pos p s)]
    nlinarith [r2val_lower p s]

/-- Witness for claim C10, at particle (0,0), source (1,0), dt = 1. -/
theorem velocity_kick_bounded_witness :
    vsub ((1:ℝ),(0:ℝ)) ((0:ℝ),(0:ℝ)) ≠ (0, 0) ∧ (0:ℝ) < 1 ∧
    (1:ℝ) ≤ length (vdiv (smul 1 (normalize (vsub (1,0) (0,0)))) (r2val (0,0) (1,0))) ∧
    length (vdiv (smul 1 (normalize (vsub (1,0) (0,0)))) (r2val (0,0) (1,0))) ≤ 10 * 1 := by
  have hd : vsub ((1:ℝ),(0:ℝ)) ((0:ℝ),(0:ℝ)) ≠ (0, 0) := by
    simp [vsub, Prod.ext_iff]
  exact ⟨hd, one_pos, (velocity_kick_bounded (0,0) (0,0) (1,0) 1 hd one_pos).2.1,
    (velocity_kick_bounded (0,0) (0,0) (1,0) 1 hd one_pos).2.2⟩

end Gravity
